import Mathlib

/-!
Verification development for the trejira task-tracking backend.

The definitions below are a shallow embedding of the repository's task
reconciliation pipeline, credential lifecycle, and calendar mirror adapter:

* task and subject records (src/models/task.model.ts, src/models/user.model.ts,
  src/types/taskTypes.ts);
* store operations with MongoDB/Mongoose semantics (findById, findOne on a
  compound id/owner filter, findByIdAndUpdate, findByIdAndDelete);
* the calendar adapter (src/services/googleCalendar.service.ts) as pure
  functions over explicit environment outcomes, with external calls reified
  into a trace;
* the three update paths (tasks.controller.ts updateTask; the rewritten
  controller version in the unnamed source file, called "rewrite" here; the
  websocket CLIENT_UPDATE_TASK handler) and the two delete paths;
* the refresh-token controller (src/controllers/auth.controller.ts) and the
  user JSON serialization transform (user.model.ts toJSON).

Timestamps are modelled as integers (milliseconds since epoch); store keys as
naturals.  Mongoose protects the `_id` and `createdAt` paths on updates
(`_id` is immutable at the server, `createdAt` is immutable under
`timestamps: true`) and itself overwrites `updatedAt`, so a task patch carries
exactly the schema-mutable paths.
-/

namespace Trejira

/-- Assignee snapshot stored on a task (task.model.ts assignee subdocument:
subject id, display name, email, captured at assignment time). -/
structure Assignee where
  id : Nat
  name : String
  email : String
deriving DecidableEq, Repr

/-- Task status enum from task.model.ts: todo, in-progress, done. -/
inductive TaskStatus
  | todo
  | inProgress
  | done
deriving DecidableEq, Repr

/-- Stored task record (task.model.ts schema paths plus the store key and the
timestamps added by the timestamps option).  The isHidden field of the
TypeScript interface is not a schema path, so the store never persists it and
it is omitted here. -/
structure Task where
  id : Nat
  title : String
  description : String
  status : TaskStatus
  deadline : Int
  owner : Nat
  assignee : Assignee
  calendarEventId : Option String
  createdAt : Int
  updatedAt : Int
deriving DecidableEq, Repr

abbrev TaskStore := List Task

/-- Subject record (user.model.ts schema paths plus store key, timestamps and
the mongoose version key, modelled as the version field). -/
structure User where
  id : Nat
  googleId : String
  email : String
  name : String
  avatar : Option String
  refreshToken : Option String
  createdAt : Int
  updatedAt : Int
  version : Int
deriving DecidableEq, Repr

abbrev UserStore := List User

/-- Task.findById. -/
def findById (store : TaskStore) (taskId : Nat) : Option Task :=
  store.find? (fun t => t.id == taskId)

/-- Task.findOne with the compound ownership filter, as in
`Task.findOne ( _id: taskId, owner: userId )`. -/
def findOneByIdOwner (store : TaskStore) (taskId owner : Nat) : Option Task :=
  store.find? (fun t => t.id == taskId && t.owner == owner)

/-- Task.findByIdAndUpdate: apply an update function to the record with the
given key, leaving every other record unchanged. -/
def storeUpdateById (store : TaskStore) (taskId : Nat) (f : Task → Task) : TaskStore :=
  store.map (fun t => if t.id == taskId then f t else t)

/-- Task.findByIdAndDelete: remove the record with the given key. -/
def storeDeleteById (store : TaskStore) (taskId : Nat) : TaskStore :=
  store.filter (fun t => t.id != taskId)

/-- User.findById. -/
def userFindById (users : UserStore) (uid : Nat) : Option User :=
  users.find? (fun u => u.id == uid)

/-- User.findOne on the unique email key. -/
def userFindByEmail (users : UserStore) (email : String) : Option User :=
  users.find? (fun u => u.email == email)

/-- Five-minute minimum event window in milliseconds
(googleCalendar.service.ts, minDurationMillis = 5 * 60 * 1000). -/
def minDurationMillis : Int := 5 * 60 * 1000

/-- End-time computation of createCalendarEvent: if the deadline is at or
before the start it is clamped to start plus five minutes; if it is within
five minutes after the start it is clamped the same way; otherwise it is
taken unchanged.  The same comparison pair guards the deadline update in
updateCalendarEvent against the current event start. -/
def createEventEnd (startTime deadline : Int) : Int :=
  if deadline ≤ startTime then startTime + minDurationMillis
  else if deadline < startTime + minDurationMillis then startTime + minDurationMillis
  else deadline

/-- Event resource sent by createCalendarEvent (summary, description,
start/end times; attendees are deliberately never attached). -/
structure CalendarEventBody where
  summary : String
  description : String
  startDateTime : Int
  endDateTime : Int
deriving DecidableEq, Repr

/-- Event built by createCalendarEvent from a task: summary is the task title,
description embeds the task description and assignee email, start is the task
creation time, end is the clamped deadline. -/
def buildCalendarEvent (task : Task) : CalendarEventBody :=
  { summary := task.title
  , description :=
      "Task Description: " ++
        (if task.description = "" then "No description." else task.description) ++
        "\n\nAssigned to: " ++ task.assignee.email
  , startDateTime := task.createdAt
  , endDateTime := createEventEnd task.createdAt task.deadline }

/-- External calendar calls performed by the adapter. -/
inductive CalCall
  | getEvent (eventId : String)
  | patchEvent (eventId : String)
  | insertEvent
deriving DecidableEq, Repr

/-- Outcome of the events.get call made by updateCalendarEvent when the
deadline changes: a start time, a response without a start time, or a thrown
error. -/
inductive GetOutcome
  | ok (startTime : Int)
  | noStart
  | failed
deriving DecidableEq, Repr

/-- updateCalendarEvent (googleCalendar.service.ts) as a call-trace function.
clientReady models whether lazy client initialization succeeded (a failure
returns false without any event call); title/description/deadline are the
fields of the task update payload the function inspects; getOutcome is the
external reply to the events.get performed only when the deadline is present;
patchOk is the outcome of the events.patch.  An empty patch body returns true
without an events.patch call; a get that yields no start time skips the time
portion but still patches any other changed field. -/
def updateCalendarEventModel (clientReady : Bool) (eventId : String)
    (title description : Option String) (deadline : Option Int)
    (getOutcome : GetOutcome) (patchOk : Bool) : List CalCall × Bool :=
  if !clientReady then ([], false)
  else
    let hasSimpleField := title.isSome || description.isSome
    match deadline with
    | none =>
      if hasSimpleField then ([CalCall.patchEvent eventId], patchOk)
      else ([], true)
    | some _ =>
      match getOutcome with
      | GetOutcome.failed => ([CalCall.getEvent eventId], false)
      | GetOutcome.noStart =>
        if hasSimpleField then ([CalCall.getEvent eventId, CalCall.patchEvent eventId], patchOk)
        else ([CalCall.getEvent eventId], true)
      | GetOutcome.ok _ =>
        ([CalCall.getEvent eventId, CalCall.patchEvent eventId], patchOk)

/-- Outcome reported by the external service for events.delete. -/
inductive ExtDeleteOutcome
  | ok
  | errCode (code : Nat)
deriving DecidableEq, Repr

/-- deleteCalendarEvent (googleCalendar.service.ts lines 292-327): a missing
client yields false; a successful delete yields true; an error with code 404
or 410 is treated as success; any other error yields false.  The function is
total, so it never throws to the caller. -/
def deleteCalendarEventModel (clientReady : Bool) (r : ExtDeleteOutcome) : Bool :=
  if !clientReady then false
  else
    match r with
    | ExtDeleteOutcome.ok => true
    | ExtDeleteOutcome.errCode code => if code == 404 || code == 410 then true else false

/-- Raw assignee object as a client may send it in an update payload: any of
the three fields may be present or absent. -/
structure AssigneePayload where
  id : Option Nat
  name : Option String
  email : Option String
deriving DecidableEq, Repr

/-- Raw update request body: every field the client may supply, each optional.
The createdAt, updatedAt and id fields can be supplied by a client but can
never reach a stored record (see TaskPatch). -/
structure UpdateBody where
  title : Option String
  description : Option String
  status : Option TaskStatus
  deadline : Option Int
  owner : Option Nat
  assignee : Option AssigneePayload
  calendarEventId : Option String
  createdAt : Option Int
  updatedAt : Option Int
  id : Option Nat
deriving DecidableEq, Repr

/-- Sanitized patch handed to findByIdAndUpdate: exactly the schema-mutable
paths.  The _id and createdAt paths are immutable at the store layer and
updatedAt is overwritten by the timestamps machinery, so they do not appear. -/
structure TaskPatch where
  title : Option String
  description : Option String
  status : Option TaskStatus
  deadline : Option Int
  owner : Option Nat
  assignee : Option Assignee
  calendarEventId : Option String
deriving DecidableEq, Repr

/-- Request-terminal failures of the update/create pipelines other than the
ownership results. -/
inductive UpdateFailure
  | unknownAssignee
deriving DecidableEq, Repr

/-- Update-payload cleanup shared by tasks.controller.ts updateTask and its
rewritten version: the owner field is deleted unconditionally; an assignee
carrying an email is replaced by the snapshot of the user that email resolves
to (a 400 failure when it resolves to nobody); an assignee without an email is
deleted silently.  Neither version deletes calendarEventId, so it passes
through to the patch.  (The rewrite additionally deletes the createdAt,
updatedAt, id and _id keys, which the store ignores in any case.) -/
def sanitizeHttpBase (b : UpdateBody) : TaskPatch :=
  { title := b.title, description := b.description, status := b.status,
    deadline := b.deadline, owner := none, assignee := none,
    calendarEventId := b.calendarEventId }

/-- Branching of the shared cleanup on the raw assignee object (see
sanitizeHttpBase for the owner deletion and field passthrough). -/
def sanitizeHttpBody (users : UserStore) (b : UpdateBody) : Except UpdateFailure TaskPatch :=
  match b.assignee with
  | none => Except.ok (sanitizeHttpBase b)
  | some a =>
    match a.email with
    | none => Except.ok (sanitizeHttpBase b)
    | some e =>
      match userFindByEmail users e with
      | none => Except.error UpdateFailure.unknownAssignee
      | some u =>
        Except.ok { sanitizeHttpBase b with
                      assignee := some { id := u.id, name := u.name, email := u.email } }

/-- Update-payload cleanup of the websocket CLIENT_UPDATE_TASK handler
(websocket.service.ts lines 90-100): owner, createdAt, updatedAt, _id, id and
calendarEventId are deleted, and any assignee value is deleted as well. -/
def wsSanitize (b : UpdateBody) : TaskPatch :=
  { title := b.title, description := b.description, status := b.status,
    deadline := b.deadline, owner := none, assignee := none, calendarEventId := none }

/-- findByIdAndUpdate / document set-and-save application of a patch to a
stored record: each present field overwrites, each absent field is kept;
updatedAt is set by the timestamps machinery; id and createdAt are
store-immutable. -/
def applyPatch (t : Task) (p : TaskPatch) (now : Int) : Task :=
  { t with
    title := p.title.getD t.title
    description := p.description.getD t.description
    status := p.status.getD t.status
    deadline := p.deadline.getD t.deadline
    owner := p.owner.getD t.owner
    assignee := p.assignee.getD t.assignee
    calendarEventId :=
      match p.calendarEventId with
      | some e => some e
      | none => t.calendarEventId
    updatedAt := now }

/-- Caller-visible result of an update request. -/
inductive UpdateResult
  | ok (t : Task)
  | notFound
  | forbidden
  | notFoundOrForbidden
  | badAssignee
deriving DecidableEq, Repr

/-- Result of one update request: the store afterwards, the caller-visible
result, and the external calendar calls performed. -/
structure UpdateOutcome where
  store : TaskStore
  result : UpdateResult
  calendarCalls : List CalCall
deriving DecidableEq, Repr

/-- updateTask of the wired HTTP controller (src/controllers/tasks.controller.ts
lines 137-217): sanitize the body (owner deleted, assignee resolved or
dropped), findByIdAndUpdate with no ownership filter (a missing task is a
404), then call updateCalendarEvent whenever the updated record has a mirror
reference, passing the update payload through. -/
def httpUpdateTask (users : UserStore) (store : TaskStore) (requester taskId : Nat)
    (b : UpdateBody) (now : Int) (calReady : Bool) (g : GetOutcome) (patchOk : Bool) :
    UpdateOutcome :=
  match sanitizeHttpBody users b with
  | Except.error _ => { store := store, result := UpdateResult.badAssignee, calendarCalls := [] }
  | Except.ok p =>
    match findById store taskId with
    | none => { store := store, result := UpdateResult.notFound, calendarCalls := [] }
    | some t =>
      let updated := applyPatch t p now
      let newStore := storeUpdateById store taskId (fun u => applyPatch u p now)
      let calls :=
        match updated.calendarEventId with
        | some e => (updateCalendarEventModel calReady e b.title b.description b.deadline g patchOk).1
        | none => []
      { store := newStore, result := UpdateResult.ok updated, calendarCalls := calls }

/-- updateTask of the rewritten controller version (unnamed source file,
lines 113-242): first the ownership check via findOne on the id/owner filter,
distinguishing a missing task (404) from a task under a different owner (403);
then the same body cleanup; then findByIdAndUpdate; then updateCalendarEvent
only when a mirror reference exists and at least one of deadline, title,
description is present in the payload. -/
def rewriteUpdateTask (users : UserStore) (store : TaskStore) (requester taskId : Nat)
    (b : UpdateBody) (now : Int) (calReady : Bool) (g : GetOutcome) (patchOk : Bool) :
    UpdateOutcome :=
  match findOneByIdOwner store taskId requester with
  | none =>
    match findById store taskId with
    | none => { store := store, result := UpdateResult.notFound, calendarCalls := [] }
    | some _ => { store := store, result := UpdateResult.forbidden, calendarCalls := [] }
  | some _ =>
    match sanitizeHttpBody users b with
    | Except.error _ => { store := store, result := UpdateResult.badAssignee, calendarCalls := [] }
    | Except.ok p =>
      match findById store taskId with
      | none => { store := store, result := UpdateResult.notFound, calendarCalls := [] }
      | some t =>
        let updated := applyPatch t p now
        let newStore := storeUpdateById store taskId (fun u => applyPatch u p now)
        let calls :=
          match updated.calendarEventId with
          | some e =>
            if b.deadline.isSome || b.title.isSome || b.description.isSome then
              (updateCalendarEventModel calReady e b.title b.description b.deadline g patchOk).1
            else []
          | none => []
        { store := newStore, result := UpdateResult.ok updated, calendarCalls := calls }

/-- CLIENT_UPDATE_TASK handler of the websocket gateway (websocket.service.ts
lines 60-125): ownership-scoped findOne (a single combined error covers both a
missing task and a foreign owner), strip owner, timestamps, identity, mirror
reference and assignee from the payload, apply the rest to the found document
and save it.  No calendar interaction occurs on this path. -/
def wsUpdateTask (store : TaskStore) (requester taskId : Nat) (b : UpdateBody) (now : Int) :
    UpdateOutcome :=
  match findOneByIdOwner store taskId requester with
  | none => { store := store, result := UpdateResult.notFoundOrForbidden, calendarCalls := [] }
  | some t =>
    let p := wsSanitize b
    let updated := applyPatch t p now
    { store := storeUpdateById store taskId (fun u => applyPatch u p now),
      result := UpdateResult.ok updated, calendarCalls := [] }

/-- Caller-visible result of a delete request. -/
inductive DeleteResult
  | deleted
  | notFound
  | forbidden
  | notFoundOrForbidden
deriving DecidableEq, Repr

/-- Actions of the delete pipeline, in the order they are attempted. -/
inductive DeleteAction
  | mirrorDelete (eventId : String)
  | storeDelete (taskId : Nat)
deriving DecidableEq, Repr

/-- Result of one delete request: the store afterwards, the caller-visible
result, and the ordered trace of mirror/store deletion actions. -/
structure DeleteOutcome where
  store : TaskStore
  result : DeleteResult
  actions : List DeleteAction
deriving DecidableEq, Repr

/-- deleteTask of the HTTP controller (tasks.controller.ts lines 219-260):
ownership-scoped findOne distinguishing 404 from 403; if the found task has a
mirror reference, await deleteCalendarEvent (its boolean result is ignored,
so a mirror failure never blocks); then findByIdAndDelete. -/
def httpDeleteTask (store : TaskStore) (requester taskId : Nat)
    (calReady : Bool) (ext : ExtDeleteOutcome) : DeleteOutcome :=
  match findOneByIdOwner store taskId requester with
  | none =>
    match findById store taskId with
    | none => { store := store, result := DeleteResult.notFound, actions := [] }
    | some _ => { store := store, result := DeleteResult.forbidden, actions := [] }
  | some t =>
    let mirrorActions :=
      match t.calendarEventId with
      | some e =>
        let _mirrorOk := deleteCalendarEventModel calReady ext
        [DeleteAction.mirrorDelete e]
      | none => []
    { store := storeDeleteById store taskId, result := DeleteResult.deleted,
      actions := mirrorActions ++ [DeleteAction.storeDelete taskId] }

/-- CLIENT_DELETE_TASK handler of the websocket gateway (websocket.service.ts
lines 128-172): ownership-scoped findOne with a single combined error; mirror
delete when a reference exists (result ignored); then findByIdAndDelete. -/
def wsDeleteTask (store : TaskStore) (requester taskId : Nat)
    (calReady : Bool) (ext : ExtDeleteOutcome) : DeleteOutcome :=
  match findOneByIdOwner store taskId requester with
  | none => { store := store, result := DeleteResult.notFoundOrForbidden, actions := [] }
  | some t =>
    let mirrorActions :=
      match t.calendarEventId with
      | some e =>
        let _mirrorOk := deleteCalendarEventModel calReady ext
        [DeleteAction.mirrorDelete e]
      | none => []
    { store := storeDeleteById store taskId, result := DeleteResult.deleted,
      actions := mirrorActions ++ [DeleteAction.storeDelete taskId] }

/-- getTasks of the wired HTTP controller (tasks.controller.ts lines 13-30):
`Task.find ( owner: req.userId )` with no sort, so the tasks come back in
store order. -/
def getTasks (store : TaskStore) (requester : Nat) : List Task :=
  store.filter (fun t => t.owner == requester)

/-- Newest-first comparison on tasks: a precedes b when b was created no later
than a. -/
def byNewest (a b : Task) : Prop := b.createdAt ≤ a.createdAt

instance : DecidableRel byNewest :=
  fun a b => inferInstanceAs (Decidable (b.createdAt ≤ a.createdAt))

instance : IsTotal Task byNewest := ⟨fun a b => le_total b.createdAt a.createdAt⟩

instance : IsTrans Task byNewest := ⟨fun _ _ _ hab hbc => le_trans hbc hab⟩

/-- getTasks of the rewritten controller version (unnamed source file, lines
15-28): the same owner filter followed by `.sort ( createdAt: -1 )`, modelled
as a sort by descending creation time. -/
def getTasksRewrite (store : TaskStore) (requester : Nat) : List Task :=
  List.insertionSort byNewest (store.filter (fun t => t.owner == requester))

/-- Raw create request body (title, description, status, deadline from the
client, plus an optional assignee object). -/
structure CreateBody where
  title : String
  description : String
  status : TaskStatus
  deadline : Int
  assignee : Option AssigneePayload
deriving DecidableEq, Repr

/-- Assignee resolution of createTask: an assignee carrying an email must
resolve to an existing user (replaced by that user's snapshot, 400 when it
resolves to nobody); otherwise the owner becomes the assignee. -/
def resolveCreateAssignee (users : UserStore) (requester : Nat)
    (requesterName requesterEmail : String) (a : Option AssigneePayload) :
    Except UpdateFailure Assignee :=
  match a with
  | some pa =>
    match pa.email with
    | some e =>
      match userFindByEmail users e with
      | none => Except.error UpdateFailure.unknownAssignee
      | some u => Except.ok { id := u.id, name := u.name, email := u.email }
    | none => Except.ok { id := requester, name := requesterName, email := requesterEmail }
  | none => Except.ok { id := requester, name := requesterName, email := requesterEmail }

/-- Record persisted by createTask: client fields plus the authenticated
requester as owner and the resolved assignee; no mirror reference yet. -/
def createTaskRecord (users : UserStore) (requester : Nat)
    (requesterName requesterEmail : String) (b : CreateBody) (newId : Nat) (now : Int) :
    Except UpdateFailure Task :=
  (resolveCreateAssignee users requester requesterName requesterEmail b.assignee).map
    (fun asg =>
      { id := newId, title := b.title, description := b.description, status := b.status,
        deadline := b.deadline, owner := requester, assignee := asg,
        calendarEventId := none, createdAt := now, updatedAt := now })

/-- One client-initiated update operation on any of the three update paths,
with its whole environment. -/
inductive UpdateOp
  | http (users : UserStore) (requester taskId : Nat) (b : UpdateBody) (now : Int)
      (calReady : Bool) (g : GetOutcome) (patchOk : Bool)
  | rewrite (users : UserStore) (requester taskId : Nat) (b : UpdateBody) (now : Int)
      (calReady : Bool) (g : GetOutcome) (patchOk : Bool)
  | realtime (requester taskId : Nat) (b : UpdateBody) (now : Int)

/-- Store effect of one update operation. -/
def applyUpdateOp (store : TaskStore) (op : UpdateOp) : TaskStore :=
  match op with
  | UpdateOp.http users requester taskId b now calReady g patchOk =>
    (httpUpdateTask users store requester taskId b now calReady g patchOk).store
  | UpdateOp.rewrite users requester taskId b now calReady g patchOk =>
    (rewriteUpdateTask users store requester taskId b now calReady g patchOk).store
  | UpdateOp.realtime requester taskId b now =>
    (wsUpdateTask store requester taskId b now).store

/-- Store effect of a sequence of update operations. -/
def applyUpdateOps (store : TaskStore) (ops : List UpdateOp) : TaskStore :=
  ops.foldl applyUpdateOp store

/-- The id/owner pairs of a store, the observation the ownership invariant is
about. -/
def ownerMap (store : TaskStore) : List (Nat × Nat) :=
  store.map (fun t => (t.id, t.owner))

/-- JSON values appearing in serialized records. -/
inductive JVal
  | str (s : String)
  | num (n : Int)
deriving DecidableEq, Repr

abbrev JObject := List (String × JVal)

/-- Property deletion on a serialized object. -/
def removeKey (o : JObject) (k : String) : JObject :=
  o.filter (fun kv => kv.1 != k)

/-- Property lookup on a serialized object. -/
def lookupKey (o : JObject) (k : String) : Option JVal :=
  (o.find? (fun kv => kv.1 == k)).map (fun kv => kv.2)

/-- Entry for an optional schema path: present in the serialized object only
when the document holds a value. -/
def optionalEntry (k : String) (v : Option String) : JObject :=
  match v with
  | some s => [(k, JVal.str s)]
  | none => []

/-- Mongoose toObject on a user document: every populated schema path plus the
raw _id key and the __v version key. -/
def userToObject (u : User) : JObject :=
  [("_id", JVal.str (toString u.id)),
   ("googleId", JVal.str u.googleId),
   ("email", JVal.str u.email),
   ("name", JVal.str u.name)]
  ++ optionalEntry "avatar" u.avatar
  ++ optionalEntry "refreshToken" u.refreshToken
  ++ [("createdAt", JVal.num u.createdAt),
      ("updatedAt", JVal.num u.updatedAt),
      ("__v", JVal.num u.version)]

/-- The toJSON transform of user.model.ts (lines 26-37): toObject, delete
refreshToken, delete __v, add a string id when none is present, delete _id. -/
def userToJSON (u : User) : JObject :=
  let o := userToObject u
  let o1 := removeKey o "refreshToken"
  let o2 := removeKey o1 "__v"
  let o3 := if lookupKey o2 "id" = none then o2 ++ [("id", JVal.str (toString u.id))] else o2
  removeKey o3 "_id"

/-- Caller-visible outcome of the refresh endpoint once the cookie token has
passed signature and expiry verification. -/
inductive RefreshResult
  | issued (accessUserId : Nat) (userBody : JObject)
  | revoked
deriving DecidableEq, Repr

/-- Post-verification branch of refreshTokenController (auth.controller.ts
lines 144-196): load the subject by the userId decoded from the verified
token and require exact equality with the persisted refresh token; a missing
subject, a missing persisted value, or a mismatch all yield the revoked
outcome (HTTP 403) with no new access token; on a match a new access token
bound to the subject id is returned together with the toJSON user body. -/
def refreshTokenController (users : UserStore) (tokenStr : String) (decodedUserId : Nat) :
    RefreshResult :=
  match userFindById users decodedUserId with
  | none => RefreshResult.revoked
  | some u =>
    match u.refreshToken with
    | none => RefreshResult.revoked
    | some persisted =>
      if persisted == tokenStr then RefreshResult.issued u.id (userToJSON u)
      else RefreshResult.revoked

/-- Persistence step of issuing a refresh token (googleLoginController step 4:
user.refreshToken = refreshToken; save), overwriting any prior value. -/
def issueRefreshToken (users : UserStore) (uid : Nat) (t : String) : UserStore :=
  users.map (fun u => if u.id == uid then { u with refreshToken := some t } else u)

/-- Persistence step of logout (logoutController: findByIdAndUpdate with
unset of refreshToken), clearing the stored value. -/
def logoutClearToken (users : UserStore) (uid : Nat) : UserStore :=
  users.map (fun u => if u.id == uid then { u with refreshToken := none } else u)

/-- Every patch produced by the shared HTTP body cleanup has its owner field
deleted. -/
lemma sanitizeHttpBody_owner_none (users : UserStore) (b : UpdateBody) (p : TaskPatch)
    (h : sanitizeHttpBody users b = Except.ok p) : p.owner = none := by
  unfold sanitizeHttpBody at h
  split at h
  · cases h; rfl
  · split at h
    · cases h; rfl
    · split at h
      · cases h
      · cases h; rfl

/-- Patch application never changes the store key. -/
lemma applyPatch_id (t : Task) (p : TaskPatch) (now : Int) : (applyPatch t p now).id = t.id := rfl

/-- Patch application keeps the owner whenever the patch has no owner value. -/
lemma applyPatch_owner (t : Task) (p : TaskPatch) (now : Int) (h : p.owner = none) :
    (applyPatch t p now).owner = t.owner := by
  simp [applyPatch, h]

/-- Updating one record through a key- and owner-preserving function leaves
the id/owner observation of the store unchanged. -/
lemma ownerMap_storeUpdateById (store : TaskStore) (taskId : Nat) (f : Task → Task)
    (hid : ∀ t, (f t).id = t.id) (how : ∀ t, (f t).owner = t.owner) :
    ownerMap (storeUpdateById store taskId f) = ownerMap store := by
  induction store with
  | nil => rfl
  | cons t rest ih =>
    simp only [storeUpdateById, ownerMap, List.map_cons] at ih ⊢
    by_cases h : (t.id == taskId) = true
    · rw [if_pos h, hid t, how t]
      exact congrArg _ ih
    · rw [if_neg h]
      exact congrArg _ ih

/-- Owner-map preservation for the wired HTTP update path. -/
lemma ownerMap_httpUpdateTask (users : UserStore) (store : TaskStore) (requester taskId : Nat)
    (b : UpdateBody) (now : Int) (calReady : Bool) (g : GetOutcome) (patchOk : Bool) :
    ownerMap (httpUpdateTask users store requester taskId b now calReady g patchOk).store
      = ownerMap store := by
  unfold httpUpdateTask
  cases hs : sanitizeHttpBody users b with
  | error e => rfl
  | ok p =>
    cases hf : findById store taskId with
    | none => rfl
    | some t =>
      show ownerMap (storeUpdateById store taskId (fun u => applyPatch u p now)) = ownerMap store
      exact ownerMap_storeUpdateById store taskId (fun u => applyPatch u p now)
        (fun u => rfl)
        (fun u => applyPatch_owner u p now (sanitizeHttpBody_owner_none users b p hs))

/-- Owner-map preservation for the rewritten HTTP update path. -/
lemma ownerMap_rewriteUpdateTask (users : UserStore) (store : TaskStore) (requester taskId : Nat)
    (b : UpdateBody) (now : Int) (calReady : Bool) (g : GetOutcome) (patchOk : Bool) :
    ownerMap (rewriteUpdateTask users store requester taskId b now calReady g patchOk).store
      = ownerMap store := by
  unfold rewriteUpdateTask
  cases ho : findOneByIdOwner store taskId requester with
  | none =>
    cases hf : findById store taskId with
    | none => rfl
    | some t => rfl
  | some t0 =>
    cases hs : sanitizeHttpBody users b with
    | error e => rfl
    | ok p =>
      cases hf : findById store taskId with
      | none => rfl
      | some t =>
        show ownerMap (storeUpdateById store taskId (fun u => applyPatch u p now)) = ownerMap store
        exact ownerMap_storeUpdateById store taskId (fun u => applyPatch u p now)
          (fun u => rfl)
          (fun u => applyPatch_owner u p now (sanitizeHttpBody_owner_none users b p hs))

/-- Owner-map preservation for the realtime update path. -/
lemma ownerMap_wsUpdateTask (store : TaskStore) (requester taskId : Nat)
    (b : UpdateBody) (now : Int) :
    ownerMap (wsUpdateTask store requester taskId b now).store = ownerMap store := by
  unfold wsUpdateTask
  cases ho : findOneByIdOwner store taskId requester with
  | none => rfl
  | some t =>
    show ownerMap (storeUpdateById store taskId (fun u => applyPatch u (wsSanitize b) now))
      = ownerMap store
    exact ownerMap_storeUpdateById store taskId (fun u => applyPatch u (wsSanitize b) now)
      (fun u => rfl)
      (fun u => applyPatch_owner u (wsSanitize b) now rfl)

/-- One update operation, on any path, leaves every stored id/owner pair
unchanged. -/
lemma ownerMap_applyUpdateOp (store : TaskStore) (op : UpdateOp) :
    ownerMap (applyUpdateOp store op) = ownerMap store := by
  cases op with
  | http users requester taskId b now calReady g patchOk =>
    exact ownerMap_httpUpdateTask users store requester taskId b now calReady g patchOk
  | rewrite users requester taskId b now calReady g patchOk =>
    exact ownerMap_rewriteUpdateTask users store requester taskId b now calReady g patchOk
  | realtime requester taskId b now =>
    exact ownerMap_wsUpdateTask store requester taskId b now

/-- Deleting a record by key makes a findById on that key come back empty. -/
lemma findById_storeDeleteById (store : TaskStore) (taskId : Nat) :
    findById (storeDeleteById store taskId) taskId = none := by
  induction store with
  | nil => rfl
  | cons t rest ih =>
    unfold storeDeleteById findById at ih ⊢
    by_cases h : t.id = taskId
    · rw [List.filter_cons_of_neg (by simp [h])]
      exact ih
    · rw [List.filter_cons_of_pos (by simpa using h),
        List.find?_cons_of_neg _ (by simpa using h)]
      exact ih

/-- Rewriting the persisted refresh token of one subject commutes with the
lookup of that subject. -/
lemma userFindById_setToken (users : UserStore) (uid : Nat) (v : Option String) :
    userFindById (users.map (fun u => if u.id == uid then { u with refreshToken := v } else u)) uid
      = (userFindById users uid).map (fun u => { u with refreshToken := v }) := by
  induction users with
  | nil => rfl
  | cons u rest ih =>
    unfold userFindById at ih ⊢
    by_cases h : u.id = uid
    · simp [h]
    · have hq : (u.id == uid) = false := by simpa using h
      simp only [List.map_cons]
      rw [if_neg (show ¬((u.id == uid) = true) by simpa using h)]
      simpa [hq, -List.find?_map] using ih

/-- Sample body used by the concrete witnesses below. -/
def wCreateBody : CreateBody :=
  { title := "t", description := "d", status := TaskStatus.todo, deadline := 0, assignee := none }

/-- Task produced by creating wCreateBody as subject 3. -/
def wCreatedTask : Task :=
  { id := 7, title := "t", description := "d", status := TaskStatus.todo, deadline := 0,
    owner := 3, assignee := { id := 3, name := "n", email := "e" }, calendarEventId := none,
    createdAt := 0, updatedAt := 0 }

/-- C2: for every task and every sequence of update operations on the HTTP,
rewritten-HTTP or realtime mutation path, the stored id/owner pairs are
unchanged — so the owner of every stored record after the sequence equals the
value set at creation, which createTask fixes to the authenticated requester;
every update path strips a client-supplied owner value before the patch is
applied. -/
theorem owner_immutable_across_update_sequences :
    (∀ (store : TaskStore) (ops : List UpdateOp),
        ownerMap (applyUpdateOps store ops) = ownerMap store)
    ∧ (∀ (users : UserStore) (requester : Nat) (rname remail : String) (b : CreateBody)
        (newId : Nat) (now : Int) (t : Task),
        createTaskRecord users requester rname remail b newId now = Except.ok t →
        t.owner = requester) := by
  constructor
  · intro store ops
    induction ops generalizing store with
    | nil => rfl
    | cons op rest ih =>
      show ownerMap (applyUpdateOps (applyUpdateOp store op) rest) = ownerMap store
      rw [ih, ownerMap_applyUpdateOp]
  · intro users requester rname remail b newId now t h
    unfold createTaskRecord at h
    cases hr : resolveCreateAssignee users requester rname remail b.assignee with
    | error e => rw [hr] at h; cases h
    | ok asg =>
      rw [hr] at h
      simp only [Except.map] at h
      cases h
      rfl

/-- Witness for C2 at a concrete creation. -/
theorem owner_immutable_across_update_sequences_witness : wCreatedTask.owner = 3 :=
  owner_immutable_across_update_sequences.2 [] 3 "n" "e" wCreateBody 7 0 wCreatedTask (by rfl)

/-- Subject fixture used by the refresh witnesses. -/
def wUser : User :=
  { id := 5, googleId := "g", email := "u@example.com", name := "U", avatar := none,
    refreshToken := some "tokA", createdAt := 0, updatedAt := 0, version := 0 }

/-- C3: a refresh call whose token passed signature/expiry verification but
does not exactly equal the refresh token persisted on the decoded subject
(superseded by a later issue, cleared by a revoke, or no such subject) ends in
the revoked outcome, and the revoked outcome carries no new access token. -/
theorem refresh_mismatch_always_revoked :
    (∀ (users : UserStore) (tokenStr : String) (uid : Nat),
        (userFindById users uid).bind (fun u => u.refreshToken) ≠ some tokenStr →
        refreshTokenController users tokenStr uid = RefreshResult.revoked)
    ∧ (∀ (users : UserStore) (uid : Nat) (told tnew : String), told ≠ tnew →
        refreshTokenController (issueRefreshToken users uid tnew) told uid
          = RefreshResult.revoked)
    ∧ (∀ (users : UserStore) (uid : Nat) (t : String),
        refreshTokenController (logoutClearToken users uid) t uid = RefreshResult.revoked) := by
  have main : ∀ (users : UserStore) (tokenStr : String) (uid : Nat),
      (userFindById users uid).bind (fun u => u.refreshToken) ≠ some tokenStr →
      refreshTokenController users tokenStr uid = RefreshResult.revoked := by
    intro users tokenStr uid h
    cases hu : userFindById users uid with
    | none => simp only [refreshTokenController, hu]
    | some u =>
      cases hr : u.refreshToken with
      | none => simp only [refreshTokenController, hu, hr]
      | some persisted =>
        rw [hu] at h
        simp only [Option.some_bind] at h
        rw [hr] at h
        simp only [refreshTokenController, hu, hr]
        rw [if_neg (show ¬((persisted == tokenStr) = true) by
          intro hx
          exact h (by rw [show persisted = tokenStr by simpa using hx]))]
  refine ⟨main, ?_, ?_⟩
  · intro users uid told tnew hne
    apply main
    unfold issueRefreshToken
    rw [userFindById_setToken]
    cases hu : userFindById users uid with
    | none => simp
    | some u =>
      simp
      intro hx
      exact hne hx.symm
  · intro users uid t
    apply main
    unfold logoutClearToken
    rw [userFindById_setToken]
    cases hu : userFindById users uid with
    | none => simp
    | some u => simp

/-- Witness for C3: a token that is not the persisted one, an old token after
a second issue, and any token after a revoke are all rejected for a concrete
subject. -/
theorem refresh_mismatch_always_revoked_witness :
    refreshTokenController [wUser] "tokB" 5 = RefreshResult.revoked
    ∧ refreshTokenController (issueRefreshToken [wUser] 5 "tokC") "tokA" 5
        = RefreshResult.revoked
    ∧ refreshTokenController (logoutClearToken [wUser] 5) "tokA" 5 = RefreshResult.revoked :=
  ⟨refresh_mismatch_always_revoked.1 [wUser] "tokB" 5 (by decide),
   refresh_mismatch_always_revoked.2.1 [wUser] 5 "tokA" "tokC" (by decide),
   refresh_mismatch_always_revoked.2.2 [wUser] 5 "tokA"⟩

/-- Task fixture at the clamping boundary: deadline equals creation time. -/
def wTaskClamp : Task :=
  { id := 11, title := "a", description := "", status := TaskStatus.todo, deadline := 0,
    owner := 3, assignee := { id := 3, name := "n", email := "e" }, calendarEventId := none,
    createdAt := 0, updatedAt := 0 }

/-- Task fixture with a deadline strictly beyond the five-minute window. -/
def wTaskFar : Task :=
  { id := 12, title := "a", description := "", status := TaskStatus.todo, deadline := 300001,
    owner := 3, assignee := { id := 3, name := "n", email := "e" }, calendarEventId := none,
    createdAt := 0, updatedAt := 0 }

/-- C4: the event mirrored at task creation starts at the creation time; its
end time is exactly start plus five minutes whenever the deadline is at or
within five minutes of the start (in particular when deadline equals
createdAt), and is the unchanged deadline whenever the deadline is strictly
more than five minutes after the start. -/
theorem calendar_create_clamps_minimum_window :
    ∀ t : Task,
      (t.deadline ≤ t.createdAt + minDurationMillis →
        (buildCalendarEvent t).endDateTime = t.createdAt + minDurationMillis)
      ∧ (t.createdAt + minDurationMillis < t.deadline →
        (buildCalendarEvent t).endDateTime = t.deadline)
      ∧ (buildCalendarEvent t).startDateTime = t.createdAt := by
  intro t
  refine ⟨?_, ?_, rfl⟩
  · intro h
    unfold minDurationMillis at h
    show createEventEnd t.createdAt t.deadline = t.createdAt + minDurationMillis
    unfold createEventEnd minDurationMillis
    split_ifs <;> omega
  · intro h
    unfold minDurationMillis at h
    show createEventEnd t.createdAt t.deadline = t.deadline
    unfold createEventEnd minDurationMillis
    split_ifs <;> omega

/-- Witness for C4 at the clamping boundary (deadline equal to createdAt) and
one millisecond beyond the window. -/
theorem calendar_create_clamps_minimum_window_witness :
    (buildCalendarEvent wTaskClamp).endDateTime = wTaskClamp.createdAt + minDurationMillis
    ∧ (buildCalendarEvent wTaskFar).endDateTime = wTaskFar.deadline :=
  ⟨(calendar_create_clamps_minimum_window wTaskClamp).1 (by decide),
   (calendar_create_clamps_minimum_window wTaskFar).2.1 (by decide)⟩

/-- C7: with an initialized client, the adapter delete reports success exactly
for a clean delete and for the 404 and 410 responses of the external service
(idempotent deletion) and false for every other error code; with no client it
reports false without calling out.  The function is total, so no outcome ever
escapes as an exception. -/
theorem mirror_delete_treats_missing_event_as_success :
    ∀ r : ExtDeleteOutcome,
      (deleteCalendarEventModel true r = true ↔
        r = ExtDeleteOutcome.ok ∨ r = ExtDeleteOutcome.errCode 404
          ∨ r = ExtDeleteOutcome.errCode 410)
      ∧ deleteCalendarEventModel false r = false := by
  intro r
  constructor
  · cases r with
    | ok => simp [deleteCalendarEventModel]
    | errCode code =>
      unfold deleteCalendarEventModel
      by_cases h4 : code = 404
      · simp [h4]
      · by_cases h10 : code = 410
        · simp [h10]
        · simp [h4, h10]
  · rfl

/-- Update body that changes nothing but the status field. -/
def statusOnlyBody (s : TaskStatus) : UpdateBody :=
  { title := none, description := none, status := some s, deadline := none,
    owner := none, assignee := none, calendarEventId := none,
    createdAt := none, updatedAt := none, id := none }

/-- C5: an update request that changes only the status performs zero external
calendar calls on each of the three update paths, whatever the store, the
requesting subject, the adapter state, and the mirror reference of the task:
the rewritten controller gates the mirror update on a changed title,
description or deadline; the wired controller still invokes the adapter, but
the adapter finds an empty patch body and returns without an events.get,
events.patch or events.insert; the realtime path never talks to the
calendar. -/
theorem status_only_update_makes_no_calendar_calls :
    ∀ (users : UserStore) (store : TaskStore) (requester taskId : Nat) (s : TaskStatus)
      (now : Int) (calReady : Bool) (g : GetOutcome) (patchOk : Bool),
      (httpUpdateTask users store requester taskId (statusOnlyBody s) now calReady g
          patchOk).calendarCalls = []
      ∧ (rewriteUpdateTask users store requester taskId (statusOnlyBody s) now calReady g
          patchOk).calendarCalls = []
      ∧ (wsUpdateTask store requester taskId (statusOnlyBody s) now).calendarCalls = [] := by
  intro users store requester taskId s now calReady g patchOk
  have hs : sanitizeHttpBody users (statusOnlyBody s)
      = Except.ok (sanitizeHttpBase (statusOnlyBody s)) := rfl
  refine ⟨?_, ?_, ?_⟩
  · cases hf : findById store taskId with
    | none => simp only [httpUpdateTask, hs, hf]
    | some t =>
      cases hc : (applyPatch t (sanitizeHttpBase (statusOnlyBody s)) now).calendarEventId with
      | none => simp only [httpUpdateTask, hs, hf, hc]
      | some e =>
        simp only [httpUpdateTask, hs, hf, hc]
        cases calReady <;> rfl
  · cases ho : findOneByIdOwner store taskId requester with
    | none =>
      cases hf : findById store taskId with
      | none => simp only [rewriteUpdateTask, ho, hf]
      | some t => simp only [rewriteUpdateTask, ho, hf]
    | some t0 =>
      cases hf : findById store taskId with
      | none => simp only [rewriteUpdateTask, ho, hs, hf]
      | some t =>
        cases hc : (applyPatch t (sanitizeHttpBase (statusOnlyBody s)) now).calendarEventId with
        | none => simp only [rewriteUpdateTask, ho, hs, hf, hc]
        | some e =>
          simp only [rewriteUpdateTask, ho, hs, hf, hc]
          rfl
  · cases ho : findOneByIdOwner store taskId requester with
    | none => simp only [wsUpdateTask, ho]
    | some t => simp only [wsUpdateTask, ho]

/-- Owner-held task fixture carrying a mirror reference, for the delete
witness. -/
def wMirroredTask : Task :=
  { id := 21, title := "m", description := "", status := TaskStatus.todo, deadline := 9,
    owner := 4, assignee := { id := 4, name := "n", email := "e" },
    calendarEventId := some "ev21", createdAt := 0, updatedAt := 0 }

/-- C6: an owner delete of a task holding a mirror reference attempts exactly
one mirror-delete, placed before the store deletion in the action trace, on
both the HTTP and the realtime delete path; the store deletion and the
deleted result hold for every mirror-delete outcome, including a 404 reply
from the external service. -/
theorem delete_mirror_once_before_store_delete :
    ∀ (store : TaskStore) (requester taskId : Nat) (t : Task) (e : String)
      (calReady : Bool) (ext : ExtDeleteOutcome),
      findOneByIdOwner store taskId requester = some t →
      t.calendarEventId = some e →
      (httpDeleteTask store requester taskId calReady ext).actions
          = [DeleteAction.mirrorDelete e, DeleteAction.storeDelete taskId]
      ∧ findById (httpDeleteTask store requester taskId calReady ext).store taskId = none
      ∧ (httpDeleteTask store requester taskId calReady ext).result = DeleteResult.deleted
      ∧ (wsDeleteTask store requester taskId calReady ext).actions
          = [DeleteAction.mirrorDelete e, DeleteAction.storeDelete taskId]
      ∧ findById (wsDeleteTask store requester taskId calReady ext).store taskId = none := by
  intro store requester taskId t e calReady ext ho hc
  refine ⟨?_, ?_, ?_, ?_, ?_⟩
  · simp only [httpDeleteTask, ho, hc]
    rfl
  · simp only [httpDeleteTask, ho, hc]
    exact findById_storeDeleteById store taskId
  · simp only [httpDeleteTask, ho, hc]
  · simp only [wsDeleteTask, ho, hc]
    rfl
  · simp only [wsDeleteTask, ho]
    exact findById_storeDeleteById store taskId

/-- Witness for C6 at a concrete store, with the external service reporting
the event as already gone (404). -/
theorem delete_mirror_once_before_store_delete_witness :
    (httpDeleteTask [wMirroredTask] 4 21 true (ExtDeleteOutcome.errCode 404)).actions
        = [DeleteAction.mirrorDelete "ev21", DeleteAction.storeDelete 21]
    ∧ findById (httpDeleteTask [wMirroredTask] 4 21 true (ExtDeleteOutcome.errCode 404)).store 21
        = none :=
  have h := delete_mirror_once_before_store_delete [wMirroredTask] 4 21 wMirroredTask "ev21"
    true (ExtDeleteOutcome.errCode 404) (by rfl) (by rfl)
  ⟨h.1, h.2.1⟩

/-- Task owned by subject 2, target of the foreign update attempt. -/
def wForeignTask : Task :=
  { id := 10, title := "theirs", description := "", status := TaskStatus.todo, deadline := 0,
    owner := 2, assignee := { id := 2, name := "o", email := "oe" }, calendarEventId := none,
    createdAt := 0, updatedAt := 0 }

/-- Update body carrying only a new title. -/
def wTitleBody : UpdateBody :=
  { title := some "hacked", description := none, status := none, deadline := none,
    owner := none, assignee := none, calendarEventId := none,
    createdAt := none, updatedAt := none, id := none }

/-- C1: the wired HTTP updateTask performs no ownership check.  A request by
subject 1 against a task owned by subject 2 succeeds and mutates the stored
record instead of failing with Forbidden; only the missing-task case yields
NotFound.  The rewritten controller version and the realtime handler do guard
the same request, which together with the comment above the wired
findByIdAndUpdate call shows the missing check is a slip, not a design. -/
theorem http_update_skips_ownership_check :
    (httpUpdateTask [] [wForeignTask] 1 10 wTitleBody 5 false GetOutcome.failed false).result
        = UpdateResult.ok { wForeignTask with title := "hacked", updatedAt := 5 }
    ∧ (httpUpdateTask [] [wForeignTask] 1 10 wTitleBody 5 false GetOutcome.failed false).store
        = [{ wForeignTask with title := "hacked", updatedAt := 5 }]
    ∧ wForeignTask.owner = 2
    ∧ (httpUpdateTask [] [] 1 10 wTitleBody 5 false GetOutcome.failed false).result
        = UpdateResult.notFound
    ∧ rewriteUpdateTask [] [wForeignTask] 1 10 wTitleBody 5 false GetOutcome.failed false
        = { store := [wForeignTask], result := UpdateResult.forbidden, calendarCalls := [] }
    ∧ (wsUpdateTask [wForeignTask] 1 10 wTitleBody 5).result
        = UpdateResult.notFoundOrForbidden :=
  ⟨rfl, rfl, rfl, rfl, rfl, rfl⟩

/-- Task owned by subject 1 holding a mirror reference. -/
def wOwnTask : Task :=
  { id := 20, title := "mine", description := "", status := TaskStatus.todo, deadline := 0,
    owner := 1, assignee := { id := 1, name := "n", email := "e" },
    calendarEventId := some "orig", createdAt := 0, updatedAt := 0 }

/-- Update body smuggling a mirror reference. -/
def wMirrorBody : UpdateBody :=
  { title := none, description := none, status := none, deadline := none,
    owner := none, assignee := none, calendarEventId := some "evil",
    createdAt := none, updatedAt := none, id := none }

/-- Counterexample to C8: on the wired HTTP update path a client-supplied
mirror reference is not stripped — it is applied to the stored record. -/
theorem http_update_applies_client_mirror_reference :
    (findById (httpUpdateTask [] [wOwnTask] 1 20 wMirrorBody 5 false GetOutcome.failed
        false).store 20).map Task.calendarEventId = some (some "evil")
    ∧ wOwnTask.calendarEventId = some "orig" :=
  ⟨rfl, rfl⟩

/-- C8 as amended: the realtime path strips owner, mirror reference and every
assignee value (timestamps and identity as well, which the store layer
protects in any case); the HTTP cleanup strips only owner unconditionally and
passes a client mirror reference through; on the HTTP paths an assignee is
applied exactly when it carries an email resolving to an existing subject, as
that subject's id/name/email snapshot, an assignee without an email is
dropped silently, and an email resolving to nobody fails the request. -/
theorem update_field_stripping_per_path :
    ∀ (users : UserStore) (b : UpdateBody),
      (wsSanitize b).owner = none
      ∧ (wsSanitize b).calendarEventId = none
      ∧ (wsSanitize b).assignee = none
      ∧ (∀ p, sanitizeHttpBody users b = Except.ok p →
          p.owner = none
          ∧ p.calendarEventId = b.calendarEventId
          ∧ p.title = b.title ∧ p.description = b.description
          ∧ p.status = b.status ∧ p.deadline = b.deadline
          ∧ (b.assignee = none → p.assignee = none)
          ∧ (∀ a, b.assignee = some a → a.email = none → p.assignee = none)
          ∧ (∀ a e u, b.assignee = some a → a.email = some e →
              userFindByEmail users e = some u →
              p.assignee = some { id := u.id, name := u.name, email := u.email }))
      ∧ (∀ a e, b.assignee = some a → a.email = some e → userFindByEmail users e = none →
          sanitizeHttpBody users b = Except.error UpdateFailure.unknownAssignee) := by
  intro users b
  refine ⟨rfl, rfl, rfl, ?_, ?_⟩
  · intro p hp
    cases hb : b.assignee with
    | none =>
      simp only [sanitizeHttpBody, hb, Except.ok.injEq] at hp
      subst hp
      refine ⟨rfl, rfl, rfl, rfl, rfl, rfl, fun _ => rfl, ?_, ?_⟩
      · intro a ha _
        cases ha
      · intro a e u ha _ _
        cases ha
    | some a =>
      cases he : a.email with
      | none =>
        simp only [sanitizeHttpBody, hb, he, Except.ok.injEq] at hp
        subst hp
        refine ⟨rfl, rfl, rfl, rfl, rfl, rfl, fun h0 => ?_, fun a1 ha1 he1 => rfl, ?_⟩
        · cases h0
        · intro a1 e1 u ha1 he1 hu1
          cases ha1
          rw [he] at he1
          cases he1
      | some e =>
        cases hu : userFindByEmail users e with
        | none =>
          rw [show sanitizeHttpBody users b = Except.error UpdateFailure.unknownAssignee by
            simp only [sanitizeHttpBody, hb, he, hu]] at hp
          cases hp
        | some u0 =>
          simp only [sanitizeHttpBody, hb, he, hu, Except.ok.injEq] at hp
          subst hp
          refine ⟨rfl, rfl, rfl, rfl, rfl, rfl, fun h0 => ?_, ?_, ?_⟩
          · cases h0
          · intro a1 ha1 he1
            cases ha1
            rw [he] at he1
            cases he1
          · intro a1 e1 u ha1 he1 hu1
            cases ha1
            rw [he] at he1
            cases he1
            rw [hu] at hu1
            cases hu1
            rfl
  · intro a e ha he hu
    simp only [sanitizeHttpBody, ha, he, hu]

/-- Resolvable assignee subject for the stripping witness. -/
def wAssigneeUser : User :=
  { id := 9, googleId := "g9", email := "nine@example.com", name := "Nine", avatar := none,
    refreshToken := none, createdAt := 0, updatedAt := 0, version := 0 }

/-- Raw assignee object carrying a resolvable email. -/
def wAssigneePayload : AssigneePayload :=
  { id := some 1, name := none, email := some "nine@example.com" }

/-- Update body carrying an owner, a mirror reference and a resolvable
assignee email. -/
def wAssigneeBody : UpdateBody :=
  { title := none, description := none, status := none, deadline := none,
    owner := some 77, assignee := some wAssigneePayload,
    calendarEventId := some "cx", createdAt := none, updatedAt := none, id := none }

/-- Patch the HTTP cleanup produces for wAssigneeBody. -/
def wSanitizedPatch : TaskPatch :=
  { title := none, description := none, status := none, deadline := none, owner := none,
    assignee := some { id := 9, name := "Nine", email := "nine@example.com" },
    calendarEventId := some "cx" }

/-- Witness for the amended C8 at a concrete body and user store. -/
theorem update_field_stripping_per_path_witness :
    (wsSanitize wAssigneeBody).owner = none
    ∧ wSanitizedPatch.owner = none
    ∧ wSanitizedPatch.assignee = some { id := 9, name := "Nine", email := "nine@example.com" } := by
  have h := update_field_stripping_per_path [wAssigneeUser] wAssigneeBody
  obtain ⟨hws, -, -, hok, -⟩ := h
  obtain ⟨ho, -, -, -, -, -, -, -, hres⟩ := hok wSanitizedPatch (by rfl)
  exact ⟨hws, ho, hres wAssigneePayload "nine@example.com" wAssigneeUser
    (by rfl) (by rfl) (by rfl)⟩

/-- Older task of subject 1 (created first, listed first by the store). -/
def wOldTask : Task :=
  { id := 30, title := "old", description := "", status := TaskStatus.todo, deadline := 0,
    owner := 1, assignee := { id := 1, name := "n", email := "e" }, calendarEventId := none,
    createdAt := 1, updatedAt := 1 }

/-- Newer task of subject 1. -/
def wNewTask : Task :=
  { id := 31, title := "new", description := "", status := TaskStatus.todo, deadline := 0,
    owner := 1, assignee := { id := 1, name := "n", email := "e" }, calendarEventId := none,
    createdAt := 2, updatedAt := 2 }

/-- Counterexample to C9: the wired list operation returns the requester's
tasks in store order, so an older task can precede a newer one — the output
is not ordered newest-first. -/
theorem list_tasks_unsorted_on_wired_path :
    getTasks [wOldTask, wNewTask] 1 = [wOldTask, wNewTask]
    ∧ wOldTask.createdAt < wNewTask.createdAt :=
  ⟨rfl, by decide⟩

/-- C9 as amended: both list operations return exactly the tasks whose owner
is the requester; the rewritten controller version additionally orders them
newest-first by creation time, while the wired controller keeps store
order. -/
theorem list_tasks_owner_exact :
    ∀ (store : TaskStore) (uid : Nat),
      (∀ t, t ∈ getTasks store uid ↔ t ∈ store ∧ t.owner = uid)
      ∧ (∀ t, t ∈ getTasksRewrite store uid ↔ t ∈ store ∧ t.owner = uid)
      ∧ List.Sorted byNewest (getTasksRewrite store uid) := by
  intro store uid
  refine ⟨?_, ?_, ?_⟩
  · intro t
    simp [getTasks, List.mem_filter]
  · intro t
    rw [getTasksRewrite, (List.perm_insertionSort byNewest _).mem_iff]
    simp [List.mem_filter]
  · exact List.sorted_insertionSort byNewest _

/-- Projection facts of the user toJSON transform. -/
lemma userToJSON_fields (u : User) :
    lookupKey (userToJSON u) "refreshToken" = none
    ∧ lookupKey (userToJSON u) "__v" = none
    ∧ lookupKey (userToJSON u) "_id" = none
    ∧ lookupKey (userToJSON u) "id" = some (JVal.str (toString u.id)) := by
  obtain ⟨uid, g, em, nm, av, rt, ca, ua, ver⟩ := u
  cases av <;> cases rt <;> exact ⟨rfl, rfl, rfl, rfl⟩

/-- C10: every serialized subject record is free of the refreshToken and
version keys and replaces the raw store key by a string id; in particular the
user body inside any successful refresh response never contains the live
refresh credential, even right after it was persisted on that record. -/
theorem user_serialization_hides_credentials :
    ∀ u : User,
      lookupKey (userToJSON u) "refreshToken" = none
      ∧ lookupKey (userToJSON u) "__v" = none
      ∧ lookupKey (userToJSON u) "_id" = none
      ∧ lookupKey (userToJSON u) "id" = some (JVal.str (toString u.id))
      ∧ (∀ (users : UserStore) (tokenStr : String) (uid a : Nat) (body : JObject),
          refreshTokenController users tokenStr uid = RefreshResult.issued a body →
          lookupKey body "refreshToken" = none ∧ lookupKey body "__v" = none) := by
  intro u
  refine ⟨(userToJSON_fields u).1, (userToJSON_fields u).2.1, (userToJSON_fields u).2.2.1,
    (userToJSON_fields u).2.2.2, ?_⟩
  intro users tokenStr uid a body h
  cases hu : userFindById users uid with
  | none =>
    simp only [refreshTokenController, hu] at h
    cases h
  | some u1 =>
    cases hr : u1.refreshToken with
    | none =>
      simp only [refreshTokenController, hu, hr] at h
      cases h
    | some persisted =>
      simp only [refreshTokenController, hu, hr] at h
      by_cases hb : (persisted == tokenStr) = true
      · rw [if_pos hb] at h
        cases h
        exact ⟨(userToJSON_fields u1).1, (userToJSON_fields u1).2.1⟩
      · rw [if_neg hb] at h
        cases h

/-- Witness for C10: a successful refresh for a concrete subject whose record
holds a live refresh token yields a body with no refreshToken and no version
key. -/
theorem user_serialization_hides_credentials_witness :
    lookupKey (userToJSON wUser) "refreshToken" = none
    ∧ lookupKey (userToJSON wUser) "__v" = none :=
  (user_serialization_hides_credentials wUser).2.2.2.2 [wUser] "tokA" 5 5 (userToJSON wUser)
    (by rfl)

end Trejira
